import Mathlib

/-!
Shallow embedding of the Project Aegis liquidity-pool contracts
(src/truffle-project/contracts/LPERC20.sol: the `LPERC20` share token and
the `LiquidityPool` contract) and proofs about them.

Modelling conventions:
* Addresses are natural numbers; `0` is the zero address.
* `uint256` is modelled as `Nat`.  Solidity 0.8 checked arithmetic reverts
  on underflow; every Solidity subtraction that is not syntactically
  guarded is modelled with the checked subtraction `csub`, which fails with
  `Err.underflow`.  Overflow at `2^256` is not modelled: no quantity in the
  modelled operations approaches it.
* Storage mappings are modelled as association lists with a default value
  (Solidity mappings default to zero values).
* A reverting call is an `Except.error`; the EVM rolls back every state
  change of a reverted transaction, so a transaction is run with `runTx`,
  which yields the pre-state whenever the call errors.
* The external staking token (`SimpleStakingToken`, a stock OpenZeppelin
  ERC20) is modelled by its balance map only: a transfer succeeds iff the
  source balance suffices.  Allowance bookkeeping of that external token is
  not tracked (allowances are assumed granted); its transfers revert on
  insufficient balance, which the pool's `require` wrappers propagate.
* `block.timestamp` is an explicit `now : Nat` argument where the source
  reads it.
-/

namespace Aegis

abbrev Addr := Nat

/-- Revert reasons of the contracts, one constructor per `require` message
or arithmetic panic that the modelled code can hit. -/
inductive Err where
  | mintToZero
  | burnFromZero
  | burnExceedsBalance
  | transferFromZero
  | transferToZero
  | transferExceedsBalance
  | approveFromZero
  | approveToZero
  | allowanceExceeded
  | poolNotActive
  | amountZero
  | tokenTransferFailed
  | insufficientLPTokens
  | insufficientCollateral
  | invalidMerchant
  | insufficientLiquidity
  | exceedsCollateralLimit
  | noLPToBurn
  | insufficientPoolLiquidity
  | insufficientMintedLP
  | invalidDebtIndex
  | debtAlreadyRepaid
  | amountExceedsDebt
  | unauthorizedTransfer
  | unauthorizedContribution
  | unauthorizedCaller
  | invalidCaller
  | noSuchPool
  | underflow
  | divByZero
deriving Repr, DecidableEq

/-- Checked subtraction: Solidity 0.8 arithmetic reverts on underflow. -/
def csub (a b : Nat) : Except Err Nat :=
  if b ≤ a then .ok (a - b) else .error .underflow

/-- Lookup in an association list with a default value, mirroring a
Solidity mapping read (first matching key wins). -/
def lookupD {α β : Type} [DecidableEq α] (l : List (α × β)) (k : α) (d : β) : β :=
  match l with
  | [] => d
  | (k', v) :: t => if k' = k then v else lookupD t k d

/-- Write to an association list, mirroring a Solidity mapping write:
replaces the first entry with the key, appends if absent. -/
def setK {α β : Type} [DecidableEq α] (l : List (α × β)) (k : α) (v : β) : List (α × β) :=
  match l with
  | [] => [(k, v)]
  | (k', w) :: t => if k' = k then (k, v) :: t else (k', w) :: setK t k v

/-- Sum of all values of an association list. -/
def sumVals {α : Type} (l : List (α × Nat)) : Nat :=
  (l.map Prod.snd).sum

/-! ## The LPERC20 share token (LPERC20.sol lines 10-107) -/

/-- State of one `LPERC20` share-token contract: holder balances, the
allowance table and the total supply. -/
structure LPERC20 where
  balances : List (Addr × Nat)
  allowances : List ((Addr × Addr) × Nat)
  totalSupply : Nat
deriving Repr, DecidableEq

/-- The freshly deployed share token: everything zero. -/
def LPERC20.empty : LPERC20 := ⟨[], [], 0⟩

/-- Source `balanceOf` (line 36). -/
def LPERC20.balanceOf (t : LPERC20) (a : Addr) : Nat :=
  lookupD t.balances a 0

/-- Source `allowance` (line 45). -/
def LPERC20.allowanceOf (t : LPERC20) (o s : Addr) : Nat :=
  lookupD t.allowances (o, s) 0

/-- Source `mint` (lines 67-74): owner-only; rejects the zero address;
increases supply and the holder's balance. The `onlyOwner` modifier is
satisfied at every modelled call site (the owning pool is the caller). -/
def LPERC20.mint (t : LPERC20) (dst amount : Nat) : Except Err LPERC20 :=
  if dst = 0 then .error .mintToZero
  else .ok { t with
    totalSupply := t.totalSupply + amount
    balances := setK t.balances dst (t.balanceOf dst + amount) }

/-- Source `burn` (lines 79-87): rejects the zero address and a balance
smaller than `amount`; decreases the balance and the supply. -/
def LPERC20.burn (t : LPERC20) (src amount : Nat) : Except Err LPERC20 :=
  if src = 0 then .error .burnFromZero
  else if t.balanceOf src < amount then .error .burnExceedsBalance
  else .ok { t with
    balances := setK t.balances src (t.balanceOf src - amount)
    totalSupply := t.totalSupply - amount }

/-- Source internal `_transfer` (lines 89-98): rejects zero addresses and
an insufficient source balance; the destination balance is read after the
source balance was written, as in the sequential Solidity code. -/
def LPERC20.xfer (t : LPERC20) (src dst amount : Nat) : Except Err LPERC20 :=
  if src = 0 then .error .transferFromZero
  else if dst = 0 then .error .transferToZero
  else if t.balanceOf src < amount then .error .transferExceedsBalance
  else
    let b1 := setK t.balances src (t.balanceOf src - amount)
    .ok { t with balances := setK b1 dst (lookupD b1 dst 0 + amount) }

/-- Source internal `_approve` (lines 100-106). -/
def LPERC20.approveOp (t : LPERC20) (o s amount : Nat) : Except Err LPERC20 :=
  if o = 0 then .error .approveFromZero
  else if s = 0 then .error .approveToZero
  else .ok { t with allowances := setK t.allowances (o, s) amount }

/-- Source `transferFrom` (lines 54-62): checks the caller's allowance,
moves the balance and writes the reduced allowance back. -/
def LPERC20.transferFromOp (t : LPERC20) (caller src dst amount : Nat) : Except Err LPERC20 := do
  let cur := t.allowanceOf src caller
  if cur < amount then .error .allowanceExceeded
  else do
    let t1 ← t.xfer src dst amount
    t1.approveOp src caller (cur - amount)

/-! ## Pool state (LiquidityPool, LPERC20.sol lines 135-531) -/

/-- Pool status enum (line 161). -/
inductive PoolStatus where
  | ACTIVE
  | PAUSED
  | INACTIVE
deriving Repr, DecidableEq

/-- The `Stake` struct (lines 118-123). -/
structure Stake where
  stakedAmount : Nat
  collateralAmount : Nat
  lpTokensMinted : Nat
  stakeTimestamp : Nat
deriving Repr, DecidableEq

/-- The zero value of the `Stake` struct, the default of the `stakers`
mapping. -/
def Stake.zero : Stake := ⟨0, 0, 0, 0⟩

/-- The `Debt` struct (lines 153-159). -/
structure Debt where
  user : Addr
  merchantAddress : Addr
  amount : Nat
  timestamp : Nat
  isRepaid : Bool
deriving Repr, DecidableEq

/-- Constant `COLLATERAL_PERCENTAGE_BP` (line 146). -/
def COLLATERAL_PERCENTAGE_BP : Nat := 2000

/-- Constant `BASIS_POINTS` (line 148). -/
def BASIS_POINTS : Nat := 10000

/-- Constant `UNSTAKE_TIME_LOCK_DURATION = 24 hours` in seconds (line 147). -/
def UNSTAKE_TIME_LOCK_DURATION : Nat := 86400

/-- Storage of one `LiquidityPool` contract instance. `addr` is the
contract's own address.  `rewardsPot` and `apyBasisPoints` are omitted: no
modelled operation reads them. -/
structure PoolState where
  addr : Addr
  status : PoolStatus
  totalLiquidityStaked : Nat
  totalDebt : Nat
  stakers : List (Addr × Stake)
  userDebts : List (Addr × List Debt)
  debtRelatedUnstakeTimelock : List (Addr × Nat)
  lpToken : LPERC20
deriving Repr, DecidableEq

/-- Source `getStake` / the `stakers` mapping read (line 211). -/
def PoolState.getStake (p : PoolState) (u : Addr) : Stake :=
  lookupD p.stakers u Stake.zero

/-- Source `getUserDebts` / the `userDebts` mapping read (line 215). -/
def PoolState.getDebts (p : PoolState) (u : Addr) : List Debt :=
  lookupD p.userDebts u []

/-- The accumulation loop shared verbatim by `getCollateralAvailable`
(lines 220-226) and `getActiveDebtAmount` (lines 231-237): total amount of
the not-yet-repaid debts. -/
def sumUnrepaid (ds : List Debt) : Nat :=
  match ds with
  | [] => 0
  | d :: t => (if d.isRepaid then 0 else d.amount) + sumUnrepaid t

/-- Source `getActiveDebtAmount` (lines 230-239). -/
def PoolState.getActiveDebtAmount (p : PoolState) (u : Addr) : Nat :=
  sumUnrepaid (p.getDebts u)

/-- Source `getCollateralAvailable` (lines 219-228): the user's recorded
collateral minus their active debt, clamped at zero by the ternary. -/
def PoolState.getCollateralAvailable (p : PoolState) (u : Addr) : Nat :=
  let totalDebt := sumUnrepaid (p.getDebts u)
  if (p.getStake u).collateralAmount > totalDebt
  then (p.getStake u).collateralAmount - totalDebt
  else 0

/-- Global state: the pool registry (`PoolFactory.getPools`, in creation
order) together with the balance map of the shared staking token. -/
structure Chain where
  pools : List PoolState
  token : List (Addr × Nat)
deriving Repr, DecidableEq

/-- Resolve a pool address through the registry. -/
def Chain.findPool (c : Chain) (a : Addr) : Option PoolState :=
  c.pools.find? (fun p => p.addr = a)

/-- Write back the storage of the pool deployed at `p.addr`. -/
def Chain.setPool (c : Chain) (p : PoolState) : Chain :=
  { c with pools := c.pools.map (fun q => if q.addr = p.addr then p else q) }

/-- Source `IPoolFactory.getPools()` (PoolFactory.sol): the registered pool
addresses in registry order. -/
def Chain.getPools (c : Chain) : List Addr :=
  c.pools.map (fun p => p.addr)

/-- Staking-token balance of an address. -/
def Chain.tokenBal (c : Chain) (a : Addr) : Nat :=
  lookupD c.token a 0

/-- A transfer of the external staking token (OpenZeppelin ERC20): reverts
iff the source balance is insufficient; the destination balance is read
after the source balance was written, so a self-transfer is a no-op. -/
def tokenTransfer (c : Chain) (src dst amount : Nat) : Except Err Chain :=
  if c.tokenBal src < amount then .error .tokenTransferFailed
  else
    let t1 := setK c.token src (c.tokenBal src - amount)
    .ok { c with token := setK t1 dst (lookupD t1 dst 0 + amount) }

/-! ## Cross-pool transfer protocol (lines 474-527) -/

/-- Source `receiveLiquidity` (lines 515-527), executed on the pool at
`self` with `msg.sender = caller`: only a registered pool may notify, and
the receiver's `totalLiquidityStaked` is increased. -/
def receiveLiquidity (c : Chain) (self caller amount : Nat) : Except Err Chain :=
  match c.findPool self with
  | none => .error .noSuchPool
  | some p =>
    if caller = 0 then .error .invalidCaller
    else if !(c.getPools.any (fun a => a = caller)) then .error .unauthorizedCaller
    else .ok (c.setPool { p with totalLiquidityStaked := p.totalLiquidityStaked + amount })

/-- Source `transferLiquidityToPool` (lines 474-491), executed on the pool
at `self` with `msg.sender = caller`.  The validity scan accepts an entry
equal to the caller or to the target pool (line 481); the `user` argument
is unused by the source body.  On success the staking token moves from
`self` to `targetPool`, `self`'s liquidity drops, and the target is
notified via `receiveLiquidity`. -/
def transferLiquidityToPool (c : Chain) (self caller targetPool user amount : Nat) : Except Err Chain :=
  match c.findPool self with
  | none => .error .noSuchPool
  | some p =>
    if caller = 0 then .error .invalidCaller
    else if amount = 0 then .error .amountZero
    else if p.totalLiquidityStaked < amount then .error .insufficientLiquidity
    else if !(c.getPools.any (fun a => a = caller ∨ a = targetPool)) then
      .error .unauthorizedTransfer
    else do
      let c1 ← tokenTransfer c self targetPool amount
      let tls ← csub p.totalLiquidityStaked amount
      let c2 := c1.setPool { p with totalLiquidityStaked := tls }
      receiveLiquidity c2 targetPool self amount

/-- Source `contributeLiquidityForPayment` (lines 493-513), executed on the
pool at `self` with `msg.sender = caller`: like `transferLiquidityToPool`
but additionally bounded by the user's entitled collateral, recomputed from
the raw `stakedAmount` (line 498). -/
def contributeLiquidityForPayment (c : Chain) (self caller targetPool user amount : Nat) : Except Err Chain :=
  match c.findPool self with
  | none => .error .noSuchPool
  | some p =>
    if caller = 0 then .error .invalidCaller
    else if amount = 0 then .error .amountZero
    else if p.totalLiquidityStaked < amount then .error .insufficientLiquidity
    else if (p.getStake user).stakedAmount * COLLATERAL_PERCENTAGE_BP / BASIS_POINTS < amount then
      .error .insufficientCollateral
    else if !(c.getPools.any (fun a => a = caller ∨ a = targetPool)) then
      .error .unauthorizedContribution
    else do
      let c1 ← tokenTransfer c self targetPool amount
      let tls ← csub p.totalLiquidityStaked amount
      let c2 := c1.setPool { p with totalLiquidityStaked := tls }
      receiveLiquidity c2 targetPool self amount

/-! ## Staking and unstaking (lines 271-308) -/

/-- Source `stake` (lines 271-289), executed on the pool at `self` with
`msg.sender = caller` at time `now`: pulls the staking token in, credits
collateral at 20% (basis-point floor division), mints shares 1:1 when the
supply is empty and proportionally otherwise. -/
def stakeOp (c : Chain) (self caller amount now : Nat) : Except Err Chain :=
  match c.findPool self with
  | none => .error .noSuchPool
  | some p =>
    if p.status ≠ PoolStatus.ACTIVE then .error .poolNotActive
    else if amount = 0 then .error .amountZero
    else do
      let c1 ← tokenTransfer c caller self amount
      let collateralAmount := amount * COLLATERAL_PERCENTAGE_BP / BASIS_POINTS
      let lpTokensToMint ←
        if p.lpToken.totalSupply = 0 then .ok amount
        else if p.totalLiquidityStaked = 0 then .error .divByZero
        else .ok (amount * p.lpToken.totalSupply / p.totalLiquidityStaked)
      let st := p.getStake caller
      let st' : Stake :=
        { stakedAmount := st.stakedAmount + amount
          collateralAmount := st.collateralAmount + collateralAmount
          lpTokensMinted := st.lpTokensMinted + lpTokensToMint
          stakeTimestamp := now }
      let lp ← p.lpToken.mint caller lpTokensToMint
      let p' := { p with
        stakers := setK p.stakers caller st'
        totalLiquidityStaked := p.totalLiquidityStaked + amount
        lpToken := lp }
      .ok (c1.setPool p')

/-- Source `unstake` (lines 291-308), executed on the pool at `self` with
`msg.sender = caller`: computes the basis-point proportion of the burned
shares, rejects with the collateral guard when the remaining collateral
would no longer cover the user's active debt in this pool, otherwise
reduces the stake record proportionally, burns the shares and returns the
proportional staked value. -/
def unstakeOp (c : Chain) (self caller lpTokenAmount : Nat) : Except Err Chain :=
  match c.findPool self with
  | none => .error .noSuchPool
  | some p =>
    if p.status ≠ PoolStatus.ACTIVE then .error .poolNotActive
    else if lpTokenAmount = 0 then .error .amountZero
    else
      let st := p.getStake caller
      if st.lpTokensMinted < lpTokenAmount then .error .insufficientLPTokens
      else if st.lpTokensMinted = 0 then .error .divByZero
      else
        let proportionBasisPoints := lpTokenAmount * BASIS_POINTS / st.lpTokensMinted
        let stakedAmountToReturn := st.stakedAmount * proportionBasisPoints / BASIS_POINTS
        let collateralToReduce := st.collateralAmount * proportionBasisPoints / BASIS_POINTS
        do
          let remainingCollateral ← csub st.collateralAmount collateralToReduce
          let activeDebt := p.getActiveDebtAmount caller
          if remainingCollateral < activeDebt then .error .insufficientCollateral
          else do
            let s1 ← csub st.stakedAmount stakedAmountToReturn
            let c1 ← csub st.collateralAmount collateralToReduce
            let m1 ← csub st.lpTokensMinted lpTokenAmount
            let tls ← csub p.totalLiquidityStaked stakedAmountToReturn
            let lp ← p.lpToken.burn caller lpTokenAmount
            let p' := { p with
              stakers := setK p.stakers caller
                { st with stakedAmount := s1, collateralAmount := c1, lpTokensMinted := m1 }
              totalLiquidityStaked := tls
              lpToken := lp }
            tokenTransfer (c.setPool p') self caller stakedAmountToReturn

/-! ## The fallback payment (lines 310-437) -/

/-- Source `getTotalCollateralAcrossPools` (lines 310-323), evaluated on
the pool `p` of chain `c`: the caller pool's own recorded collateral for
`user` plus the recorded collateral in every other registered pool.  The
`try`/`catch` of the view call cannot fail for a registered pool, so the
loop body always accumulates. -/
def getTotalCollateralAcrossPools (c : Chain) (p : PoolState) (user : Addr) : Nat :=
  (p.getStake user).collateralAmount +
    ((c.pools.filter (fun q => q.addr ≠ p.addr)).map
      (fun q => (q.getStake user).collateralAmount)).sum

/-- Loop body of `redistributeFundsFromPools` (lines 329-350): walks the
registry snapshot `ps`, skipping `self`, drawing
`min(peerCollateralAvailable, stillNeeded)` from each peer whose liquidity
covers that draw, via `transferLiquidityToPool`; a failing peer call is
caught and skipped. Returns the updated chain, the remaining need and the
accumulated `redistributedAmount`. -/
def redistributeLoop (self user : Addr) (ps : List Addr) (c : Chain) (stillNeeded redistributed : Nat) :
    Chain × Nat × Nat :=
  match ps with
  | [] => (c, stillNeeded, redistributed)
  | a :: rest =>
    if stillNeeded = 0 then (c, stillNeeded, redistributed)
    else if a = self then redistributeLoop self user rest c stillNeeded redistributed
    else
      match c.findPool a with
      | none => redistributeLoop self user rest c stillNeeded redistributed
      | some q =>
        let poolCollateral := q.getCollateralAvailable user
        let poolLiquidity := q.totalLiquidityStaked
        let canTakeFromPool := if poolCollateral > stillNeeded then stillNeeded else poolCollateral
        if poolLiquidity ≥ canTakeFromPool ∧ canTakeFromPool > 0 then
          match transferLiquidityToPool c a self self user canTakeFromPool with
          | .ok c' =>
            redistributeLoop self user rest c' (stillNeeded - canTakeFromPool)
              (redistributed + canTakeFromPool)
          | .error _ => redistributeLoop self user rest c stillNeeded redistributed
        else redistributeLoop self user rest c stillNeeded redistributed

/-- Source `redistributeFundsFromPools` (lines 325-352): Phase 1 of the
fallback payment.  The initial `stillNeeded = requiredAmount -
currentPoolAvailable` is a checked subtraction (it underflows, reverting
the transaction, when the available collateral already exceeds the
requirement). -/
def redistributeFundsFromPools (c : Chain) (self user requiredAmount currentPoolAvailable : Nat) :
    Except Err (Chain × Nat) := do
  let stillNeeded ← csub requiredAmount currentPoolAvailable
  let r := redistributeLoop self user c.getPools c stillNeeded currentPoolAvailable
  .ok (r.1, r.2.2)

/-- Loop body of `addLiquidityFromNewPools` (lines 358-380): walks the
registry snapshot, recomputing the user's entitled collateral in each peer
from the raw staked amount, and draws it via
`contributeLiquidityForPayment`; a failing peer call is caught and
skipped. -/
def addLiquidityLoop (self user : Addr) (ps : List Addr) (c : Chain) (stillNeeded totalAvailable : Nat) :
    Chain × Nat × Nat :=
  match ps with
  | [] => (c, stillNeeded, totalAvailable)
  | a :: rest =>
    if stillNeeded = 0 then (c, stillNeeded, totalAvailable)
    else if a = self then addLiquidityLoop self user rest c stillNeeded totalAvailable
    else
      match c.findPool a with
      | none => addLiquidityLoop self user rest c stillNeeded totalAvailable
      | some q =>
        let userStakeInPool := (q.getStake user).stakedAmount
        let userCollateralInPool := userStakeInPool * COLLATERAL_PERCENTAGE_BP / BASIS_POINTS
        let availableFromPool := if userCollateralInPool > stillNeeded then stillNeeded else userCollateralInPool
        let poolLiquidity := q.totalLiquidityStaked
        if availableFromPool > 0 ∧ poolLiquidity ≥ availableFromPool then
          match contributeLiquidityForPayment c a self self user availableFromPool with
          | .ok c' =>
            addLiquidityLoop self user rest c' (stillNeeded - availableFromPool)
              (totalAvailable + availableFromPool)
          | .error _ => addLiquidityLoop self user rest c stillNeeded totalAvailable
        else addLiquidityLoop self user rest c stillNeeded totalAvailable

/-- Source `addLiquidityFromNewPools` (lines 354-382): Phase 2 of the
fallback payment. -/
def addLiquidityFromNewPools (c : Chain) (self user requiredAmount currentAvailable : Nat) :
    Except Err (Chain × Nat) := do
  let stillNeeded ← csub requiredAmount currentAvailable
  let r := addLiquidityLoop self user c.getPools c stillNeeded currentAvailable
  .ok (r.1, r.2.2)

/-- Source `executeOriginalFallbackPay` (lines 407-437), executed on the
pool at `self` for `msg.sender = caller` at time `now`: burns shares
proportional to the payment, debits the stake and the liquidity, recomputes
the collateral from the reduced stake, appends the debt record, raises the
unstake timelock to `now + UNSTAKE_TIME_LOCK_DURATION` when that is later
than the stored one, and pays the merchant in staking tokens. -/
def executeOriginalFallbackPay (c : Chain) (self caller merchant amount now : Nat) : Except Err Chain :=
  match c.findPool self with
  | none => .error .noSuchPool
  | some p =>
    if p.totalLiquidityStaked < amount then .error .insufficientPoolLiquidity
    else if p.lpToken.totalSupply = 0 then .error .noLPToBurn
    else
      let lpTokensToBurn := amount * p.lpToken.totalSupply / p.totalLiquidityStaked
      if p.lpToken.balanceOf caller < lpTokensToBurn then .error .insufficientLPTokens
      else
        let st := p.getStake caller
        if st.lpTokensMinted < lpTokensToBurn then .error .insufficientMintedLP
        else do
          let m1 ← csub st.lpTokensMinted lpTokensToBurn
          let s1 ← csub st.stakedAmount amount
          let coll1 := s1 * COLLATERAL_PERCENTAGE_BP / BASIS_POINTS
          let tls ← csub p.totalLiquidityStaked amount
          let lp ← p.lpToken.burn caller lpTokensToBurn
          let newDebt : Debt :=
            { user := caller, merchantAddress := merchant, amount := amount
              timestamp := now, isRepaid := false }
          let oldLock := lookupD p.debtRelatedUnstakeTimelock caller 0
          let newTimelock := now + UNSTAKE_TIME_LOCK_DURATION
          let lock' := if newTimelock > oldLock then newTimelock else oldLock
          let p' := { p with
            stakers := setK p.stakers caller
              { st with lpTokensMinted := m1, stakedAmount := s1, collateralAmount := coll1 }
            totalLiquidityStaked := tls
            lpToken := lp
            userDebts := setK p.userDebts caller (p.getDebts caller ++ [newDebt])
            totalDebt := p.totalDebt + amount
            debtRelatedUnstakeTimelock := setK p.debtRelatedUnstakeTimelock caller lock' }
          tokenTransfer (c.setPool p') self merchant amount

/-- Source `fallbackPay` (lines 384-405), executed on the pool at `self`
with `msg.sender = caller` at time `now`: the fast path when local
available collateral and local liquidity both cover `amount`; Phase 1 only
when local liquidity is short; Phase 2 when the running total is still
short; then the sufficiency check, the global-collateral check against the
entry-time total, and the actual payment. -/
def fallbackPay (c : Chain) (self caller merchant amount now : Nat) : Except Err Chain :=
  match c.findPool self with
  | none => .error .noSuchPool
  | some p =>
    if p.status ≠ PoolStatus.ACTIVE then .error .poolNotActive
    else if amount = 0 then .error .amountZero
    else if merchant = 0 then .error .invalidMerchant
    else
      let totalCollateralAcross := getTotalCollateralAcrossPools c p caller
      let currentPoolCollateral := p.getCollateralAvailable caller
      let currentPoolLiquidity := p.totalLiquidityStaked
      if currentPoolCollateral ≥ amount ∧ currentPoolLiquidity ≥ amount then
        executeOriginalFallbackPay c self caller merchant amount now
      else do
        let r1 ←
          if currentPoolLiquidity < amount then
            redistributeFundsFromPools c self caller amount currentPoolCollateral
          else .ok (c, currentPoolCollateral)
        let r2 ←
          if r1.2 < amount then
            addLiquidityFromNewPools r1.1 self caller amount r1.2
          else .ok r1
        if r2.2 < amount then .error .insufficientLiquidity
        else if totalCollateralAcross < amount then .error .exceedsCollateralLimit
        else executeOriginalFallbackPay r2.1 self caller merchant amount now

/-- Source `repayDebt` (lines 439-456), executed on the pool at `self` with
`msg.sender = caller`: validates the index, the unrepaid flag and the
amount bound, pulls the repayment in, reduces the debt or marks it repaid,
decrements the pool's `totalDebt`, and clears the caller's unstake timelock
when they no longer have active debt in this pool. -/
def repayDebt (c : Chain) (self caller debtIndex amount : Nat) : Except Err Chain :=
  match c.findPool self with
  | none => .error .noSuchPool
  | some p =>
    if p.status ≠ PoolStatus.ACTIVE then .error .poolNotActive
    else if amount = 0 then .error .amountZero
    else
      let ds := p.getDebts caller
      match ds[debtIndex]? with
      | none => .error .invalidDebtIndex
      | some d =>
        if d.isRepaid then .error .debtAlreadyRepaid
        else if d.amount < amount then .error .amountExceedsDebt
        else do
          let c1 ← tokenTransfer c caller self amount
          let d' := if amount = d.amount then { d with isRepaid := true }
                    else { d with amount := d.amount - amount }
          let td ← csub p.totalDebt amount
          let p1 := { p with userDebts := setK p.userDebts caller (ds.set debtIndex d'), totalDebt := td }
          let p2 :=
            if p1.getActiveDebtAmount caller = 0 then
              { p1 with debtRelatedUnstakeTimelock := setK p1.debtRelatedUnstakeTimelock caller 0 }
            else p1
          .ok (c1.setPool p2)

/-- EVM transaction semantics: a reverted call rolls back every state
change, so running a call as a transaction yields the pre-state together
with the revert reason on failure. -/
def runTx (f : Chain → Except Err Chain) (c : Chain) : Chain × Option Err :=
  match f c with
  | .ok c' => (c', none)
  | .error e => (c, some e)

/-- Defined from the specification's wording of the fallback-pay steps, for
comparison with the source-translated `fallbackPay` only: per the spec,
whenever the fast path does not apply, Phase 1 (redistribution of existing
collateral) runs before Phase 2 is attempted.  Identical to `fallbackPay`
except that Phase 1 is not conditioned on a local liquidity shortfall. -/
def fallbackPaySpecPhase1 (c : Chain) (self caller merchant amount now : Nat) : Except Err Chain :=
  match c.findPool self with
  | none => .error .noSuchPool
  | some p =>
    if p.status ≠ PoolStatus.ACTIVE then .error .poolNotActive
    else if amount = 0 then .error .amountZero
    else if merchant = 0 then .error .invalidMerchant
    else
      let totalCollateralAcross := getTotalCollateralAcrossPools c p caller
      let currentPoolCollateral := p.getCollateralAvailable caller
      let currentPoolLiquidity := p.totalLiquidityStaked
      if currentPoolCollateral ≥ amount ∧ currentPoolLiquidity ≥ amount then
        executeOriginalFallbackPay c self caller merchant amount now
      else do
        let r1 ← redistributeFundsFromPools c self caller amount currentPoolCollateral
        let r2 ←
          if r1.2 < amount then
            addLiquidityFromNewPools r1.1 self caller amount r1.2
          else .ok r1
        if r2.2 < amount then .error .insufficientLiquidity
        else if totalCollateralAcross < amount then .error .exceedsCollateralLimit
        else executeOriginalFallbackPay r2.1 self caller merchant amount now

/-! ## Share-ledger operation sequences (for the conservation invariant) -/

/-- The four external share-ledger operations: `mint`, `burn`, `transfer`
(which calls `_transfer(msg.sender, dst, amount)`, line 40) and
`transferFrom` (line 54). -/
inductive LedgerOp where
  | mintOp (dst amount : Nat)
  | burnOp (src amount : Nat)
  | transferOp (caller dst amount : Nat)
  | transferFromEx (caller src dst amount : Nat)
deriving Repr, DecidableEq

/-- Dispatch one ledger operation. -/
def applyLedgerOp (t : LPERC20) : LedgerOp → Except Err LPERC20
  | .mintOp dst a => t.mint dst a
  | .burnOp src a => t.burn src a
  | .transferOp caller dst a => t.xfer caller dst a
  | .transferFromEx caller src dst a => t.transferFromOp caller src dst a

/-- Run one ledger operation as a transaction: a failing operation reverts
and leaves the ledger unchanged. -/
def applyLedgerOpTx (t : LPERC20) (op : LedgerOp) : LPERC20 :=
  match applyLedgerOp t op with
  | .ok t' => t'
  | .error _ => t

/-- Run a sequence of ledger operations, each as its own transaction. -/
def applyLedgerOps (t : LPERC20) : List LedgerOp → LPERC20
  | [] => t
  | op :: rest => applyLedgerOps (applyLedgerOpTx t op) rest

/-! ## Repayment sequences (for the debt round-trip) -/

/-- Run a list of `repayDebt` calls against the same debt entry, stopping
at the first revert. -/
def repaySeq (self caller debtIndex : Nat) (c : Chain) : List Nat → Except Err Chain
  | [] => .ok c
  | a :: rest => (repayDebt c self caller debtIndex a).bind fun c' => repaySeq self caller debtIndex c' rest

/-- A list of repayment amounts is valid for a remaining debt `r` when each
amount is positive and at most the debt remaining at its turn, and the
amounts exactly cover the debt. -/
def validRepaySeq (r : Nat) : List Nat → Bool
  | [] => r = 0
  | a :: rest => 0 < a && a ≤ r && validRepaySeq (r - a) rest

/-! ## Concrete states used by counterexamples and witnesses -/

/-- Two registered pools (addresses 1 and 2); address 999 is not
registered.  Pool 1 holds liquidity and a stake of user 10. -/
def c1Chain : Chain :=
  { pools := [
      { addr := 1, status := .ACTIVE, totalLiquidityStaked := 10, totalDebt := 0,
        stakers := [(10, ⟨25, 5, 25, 0⟩)], userDebts := [], debtRelatedUnstakeTimelock := [],
        lpToken := LPERC20.empty },
      { addr := 2, status := .ACTIVE, totalLiquidityStaked := 0, totalDebt := 0,
        stakers := [], userDebts := [], debtRelatedUnstakeTimelock := [],
        lpToken := LPERC20.empty } ],
    token := [(1, 10)] }

/-- A single registered empty pool: a fallback payment against it fails. -/
def c2WitChain : Chain :=
  { pools := [
      { addr := 1, status := .ACTIVE, totalLiquidityStaked := 0, totalDebt := 0,
        stakers := [], userDebts := [], debtRelatedUnstakeTimelock := [],
        lpToken := LPERC20.empty } ],
    token := [] }

/-- A single registered empty pool; user 10 has zero collateral anywhere,
so any positive payment exceeds the global collateral. -/
def c3CexChain : Chain :=
  { pools := [
      { addr := 1, status := .ACTIVE, totalLiquidityStaked := 0, totalDebt := 0,
        stakers := [], userDebts := [], debtRelatedUnstakeTimelock := [],
        lpToken := LPERC20.empty } ],
    token := [] }

/-- A single registered empty pool for the global-solvency witness. -/
def c3WitChain : Chain :=
  { pools := [
      { addr := 1, status := .ACTIVE, totalLiquidityStaked := 0, totalDebt := 0,
        stakers := [], userDebts := [], debtRelatedUnstakeTimelock := [],
        lpToken := LPERC20.empty } ],
    token := [] }

/-- A fresh pool and a user (address 10) holding staking tokens. -/
def c4CexChain : Chain :=
  { pools := [
      { addr := 1, status := .ACTIVE, totalLiquidityStaked := 0, totalDebt := 0,
        stakers := [], userDebts := [], debtRelatedUnstakeTimelock := [],
        lpToken := LPERC20.empty } ],
    token := [(10, 100)] }

/-- The result of staking 3 twice into `c4CexChain`'s pool. -/
def c4CexResult : Except Err Chain :=
  (stakeOp c4CexChain 1 10 3 0).bind fun c1 => stakeOp c1 1 10 3 0

/-- A fresh pool and a funded user for the single-stake witness. -/
def c4WitChain : Chain :=
  { pools := [
      { addr := 1, status := .ACTIVE, totalLiquidityStaked := 0, totalDebt := 0,
        stakers := [], userDebts := [], debtRelatedUnstakeTimelock := [],
        lpToken := LPERC20.empty } ],
    token := [(10, 100)] }

/-- The state after `stakeOp c4WitChain 1 10 3 0`. -/
def c4WitFinal : Chain :=
  { pools := [
      { addr := 1, status := .ACTIVE, totalLiquidityStaked := 3, totalDebt := 0,
        stakers := [(10, ⟨3, 0, 3, 0⟩)], userDebts := [], debtRelatedUnstakeTimelock := [],
        lpToken := { balances := [(10, 3)], allowances := [], totalSupply := 3 } } ],
    token := [(10, 97), (1, 3)] }

/-- User 10 has an active debt of 10 in pool 1 and an unstake timelock
recorded at 86400 (created by a fallback payment at time 0), yet still
holds 90 shares. -/
def c5Chain : Chain :=
  { pools := [
      { addr := 1, status := .ACTIVE, totalLiquidityStaked := 90, totalDebt := 10,
        stakers := [(10, ⟨90, 18, 90, 0⟩)],
        userDebts := [(10, [⟨10, 5, 10, 0, false⟩])],
        debtRelatedUnstakeTimelock := [(10, 86400)],
        lpToken := { balances := [(10, 90)], allowances := [], totalSupply := 90 } } ],
    token := [(1, 90)] }

/-- Pool 1 has ample liquidity (50 ≥ the payment of 8) but no available
collateral for user 10; peer pool 2 records 8 of collateral for user 10
(with no raw stake behind it) and liquidity 100.  Phase 1 could draw the
missing 8 from pool 2, but the source skips Phase 1 because local
liquidity suffices. -/
def c6CexChain : Chain :=
  { pools := [
      { addr := 1, status := .ACTIVE, totalLiquidityStaked := 50, totalDebt := 0,
        stakers := [(10, ⟨40, 0, 40, 0⟩)], userDebts := [], debtRelatedUnstakeTimelock := [],
        lpToken := { balances := [(10, 40), (11, 10)], allowances := [], totalSupply := 50 } },
      { addr := 2, status := .ACTIVE, totalLiquidityStaked := 100, totalDebt := 0,
        stakers := [(10, ⟨0, 8, 0, 0⟩)], userDebts := [], debtRelatedUnstakeTimelock := [],
        lpToken := LPERC20.empty } ],
    token := [(1, 50), (2, 100)] }

/-- A pool whose local liquidity is short of the payment, for the
phase-condition witness. -/
def c6WitChain : Chain :=
  { pools := [
      { addr := 1, status := .ACTIVE, totalLiquidityStaked := 0, totalDebt := 0,
        stakers := [], userDebts := [], debtRelatedUnstakeTimelock := [],
        lpToken := LPERC20.empty } ],
    token := [] }

/-- User 10 staked 7 and holds all 7 shares of pool 1; unstaking one share
is a 1/7 redemption. -/
def c7CexChain : Chain :=
  { pools := [
      { addr := 1, status := .ACTIVE, totalLiquidityStaked := 7, totalDebt := 0,
        stakers := [(10, ⟨7, 1, 7, 0⟩)], userDebts := [], debtRelatedUnstakeTimelock := [],
        lpToken := { balances := [(10, 7)], allowances := [], totalSupply := 7 } } ],
    token := [(1, 7)] }

/-- User 10 staked 10 and holds all 10 shares of pool 1, with 2 recorded
as collateral and no debt. -/
def c7WitChain : Chain :=
  { pools := [
      { addr := 1, status := .ACTIVE, totalLiquidityStaked := 10, totalDebt := 0,
        stakers := [(10, ⟨10, 2, 10, 0⟩)], userDebts := [], debtRelatedUnstakeTimelock := [],
        lpToken := { balances := [(10, 10)], allowances := [], totalSupply := 10 } } ],
    token := [(1, 10)] }

/-- User 10 owes a single debt of 10 in pool 1 and has an unstake timelock
recorded; the user holds enough staking tokens to repay. -/
def c8WitChain : Chain :=
  { pools := [
      { addr := 1, status := .ACTIVE, totalLiquidityStaked := 80, totalDebt := 10,
        stakers := [(10, ⟨80, 16, 80, 0⟩)],
        userDebts := [(10, [⟨10, 5, 10, 0, false⟩])],
        debtRelatedUnstakeTimelock := [(10, 86400)],
        lpToken := { balances := [(10, 80)], allowances := [], totalSupply := 80 } } ],
    token := [(10, 50)] }

/-! ## Helper lemmas about the map and sum primitives -/

theorem lookupD_setK_eq {α β : Type} [DecidableEq α] (l : List (α × β)) (k : α) (v d : β) :
    lookupD (setK l k v) k d = v := by
  induction l with
  | nil => simp [setK, lookupD]
  | cons h t ih =>
    obtain ⟨a, b⟩ := h
    by_cases hk : a = k <;> simp [setK, lookupD, hk, ih]

theorem lookupD_setK_ne {α β : Type} [DecidableEq α] (l : List (α × β)) (k k' : α) (v d : β)
    (h : k ≠ k') : lookupD (setK l k v) k' d = lookupD l k' d := by
  induction l with
  | nil => simp [setK, lookupD, h]
  | cons hd t ih =>
    obtain ⟨a, b⟩ := hd
    by_cases hk : a = k
    · subst hk
      simp [setK, lookupD, h]
    · simp [setK, lookupD, hk, ih]

theorem sumVals_nil {α : Type} : sumVals ([] : List (α × Nat)) = 0 := rfl

theorem sumVals_cons {α : Type} (x : α × Nat) (t : List (α × Nat)) :
    sumVals (x :: t) = x.2 + sumVals t := by
  simp [sumVals]

theorem sumVals_setK {α : Type} [DecidableEq α] (l : List (α × Nat)) (k : α) (v : Nat) :
    sumVals (setK l k v) + lookupD l k 0 = sumVals l + v := by
  induction l with
  | nil => simp [setK, lookupD, sumVals]
  | cons hd t ih =>
    obtain ⟨a, b⟩ := hd
    by_cases hk : a = k
    · subst hk
      rw [show setK ((a, b) :: t) a v = (a, v) :: t from by simp [setK]]
      rw [show lookupD ((a, b) :: t) a 0 = b from by simp [lookupD]]
      simp only [sumVals_cons]
      omega
    · rw [show setK ((a, b) :: t) k v = (a, b) :: setK t k v from by simp [setK, hk]]
      rw [show lookupD ((a, b) :: t) k 0 = lookupD t k 0 from by simp [lookupD, hk]]
      simp only [sumVals_cons]
      omega

theorem lookupD_le_sumVals {α : Type} [DecidableEq α] (l : List (α × Nat)) (k : α) :
    lookupD l k 0 ≤ sumVals l := by
  induction l with
  | nil => simp [lookupD, sumVals]
  | cons hd t ih =>
    obtain ⟨a, b⟩ := hd
    rw [show lookupD ((a, b) :: t) k 0 = if a = k then b else lookupD t k 0 from rfl]
    by_cases hk : a = k
    · simp only [if_pos hk, sumVals_cons]
      omega
    · simp only [if_neg hk, sumVals_cons]
      omega

/-! ## Helper lemmas about the chain primitives -/

theorem findPool_addr {c : Chain} {a : Addr} {p : PoolState} (h : c.findPool a = some p) :
    p.addr = a := by
  have := List.find?_some h
  simpa using this

theorem find?_map_set (ps : List PoolState) (a : Addr) (p q : PoolState)
    (h : ps.find? (fun r => r.addr = a) = some p) (hq : q.addr = a) :
    (ps.map fun r => if r.addr = q.addr then q else r).find? (fun r => r.addr = a) = some q := by
  induction ps with
  | nil => simp at h
  | cons x t ih =>
    by_cases hx : x.addr = a
    · have hxq : (if x.addr = q.addr then q else x) = q := by
        rw [hq, hx]
        simp
      simp only [List.map_cons, hxq]
      rw [List.find?_cons_of_pos]
      simp [hq]
    · have hxq : (if x.addr = q.addr then q else x) = x := by
        rw [hq]
        simp [hx]
      rw [List.find?_cons_of_neg _ (by simp [hx])] at h
      simp only [List.map_cons, hxq]
      rw [List.find?_cons_of_neg _ (by simp [hx])]
      exact ih h

theorem findPool_setPool {c : Chain} {a : Addr} {p q : PoolState}
    (h : c.findPool a = some p) (hq : q.addr = a) : (c.setPool q).findPool a = some q := by
  unfold Chain.findPool Chain.setPool at *
  exact find?_map_set c.pools a p q h hq

theorem setPool_token (c : Chain) (q : PoolState) : (c.setPool q).token = c.token := rfl

theorem tokenTransfer_pools {c c' : Chain} {s d a : Nat} (h : tokenTransfer c s d a = .ok c') :
    c'.pools = c.pools := by
  unfold tokenTransfer at h
  split at h
  · exact absurd h (by simp)
  · cases h
    rfl

theorem tokenTransfer_bal_dst {c c' : Chain} {s d a : Nat} (h : tokenTransfer c s d a = .ok c')
    (hne : d ≠ s) : c'.tokenBal d = c.tokenBal d + a := by
  unfold tokenTransfer at h
  split at h
  · exact absurd h (by simp)
  · cases h
    unfold Chain.tokenBal
    rw [lookupD_setK_eq, lookupD_setK_ne _ _ _ _ _ (fun hx => hne hx.symm)]

theorem findPool_eq_of_pools {c c' : Chain} (h : c'.pools = c.pools) (a : Addr) :
    c'.findPool a = c.findPool a := by
  unfold Chain.findPool
  rw [h]

theorem csub_ok {a b : Nat} (h : b ≤ a) : csub a b = .ok (a - b) := by
  unfold csub
  rw [if_pos h]

theorem tokenTransfer_ok (c : Chain) (s d a : Nat) (h : a ≤ c.tokenBal s) :
    tokenTransfer c s d a =
      .ok { c with token := (setK (setK c.token s (c.tokenBal s - a)) d (lookupD (setK c.token s (c.tokenBal s - a)) d 0 + a)) } := by
  unfold tokenTransfer
  rw [if_neg (by omega)]

/-! ## Helper lemmas about proportions -/

theorem bp_proportion_le (lp minted : Nat) (hle : lp ≤ minted) (h0 : minted ≠ 0) :
    lp * BASIS_POINTS / minted ≤ BASIS_POINTS := by
  calc lp * BASIS_POINTS / minted
      ≤ minted * BASIS_POINTS / minted :=
        Nat.div_le_div_right (Nat.mul_le_mul_right _ hle)
    _ = BASIS_POINTS := Nat.mul_div_cancel_left _ (Nat.pos_of_ne_zero h0)

theorem mul_bp_div_le (x p : Nat) (hp : p ≤ BASIS_POINTS) : x * p / BASIS_POINTS ≤ x := by
  calc x * p / BASIS_POINTS
      ≤ x * BASIS_POINTS / BASIS_POINTS :=
        Nat.div_le_div_right (Nat.mul_le_mul_left _ hp)
    _ = x := Nat.mul_div_cancel _ (by norm_num [BASIS_POINTS])

/-- The available collateral never exceeds the recorded collateral. -/
theorem getCollateralAvailable_le (p : PoolState) (u : Addr) :
    p.getCollateralAvailable u ≤ (p.getStake u).collateralAmount := by
  simp only [PoolState.getCollateralAvailable]
  split <;> omega

/-- The pool's own recorded collateral is part of the global total. -/
theorem local_collateral_le_total (c : Chain) (p : PoolState) (u : Addr) :
    (p.getStake u).collateralAmount ≤ getTotalCollateralAcrossPools c p u := by
  unfold getTotalCollateralAcrossPools
  omega

/-! ## Conservation of the share ledger -/

theorem xfer_preserves_sum {t t' : LPERC20} {src dst a : Nat}
    (hx : t.xfer src dst a = .ok t')
    (h : sumVals t.balances = t.totalSupply) :
    sumVals t'.balances = t'.totalSupply := by
  unfold LPERC20.xfer at hx
  split at hx
  · exact absurd hx (by simp)
  · split at hx
    · exact absurd hx (by simp)
    · split at hx
      · exact absurd hx (by simp)
      · rename_i hbal
        cases hx
        dsimp only
        have hs1 := sumVals_setK t.balances src (t.balanceOf src - a)
        have hs2 := sumVals_setK (setK t.balances src (t.balanceOf src - a)) dst
          (lookupD (setK t.balances src (t.balanceOf src - a)) dst 0 + a)
        have hle := lookupD_le_sumVals t.balances src
        unfold LPERC20.balanceOf at hbal hs1 hs2 ⊢
        omega

theorem ledger_step_preserves_sum (t : LPERC20) (op : LedgerOp)
    (h : sumVals t.balances = t.totalSupply) :
    sumVals (applyLedgerOpTx t op).balances = (applyLedgerOpTx t op).totalSupply := by
  cases op with
  | mintOp dst a =>
    cases hm : t.mint dst a with
    | error e =>
      rw [show applyLedgerOpTx t (.mintOp dst a) = t by
        unfold applyLedgerOpTx applyLedgerOp; dsimp only; rw [hm]]
      exact h
    | ok t' =>
      rw [show applyLedgerOpTx t (.mintOp dst a) = t' by
        unfold applyLedgerOpTx applyLedgerOp; dsimp only; rw [hm]]
      unfold LPERC20.mint at hm
      split at hm
      · exact absurd hm (by simp)
      · cases hm
        dsimp only
        have hs := sumVals_setK t.balances dst (t.balanceOf dst + a)
        unfold LPERC20.balanceOf at hs ⊢
        omega
  | burnOp src a =>
    cases hm : t.burn src a with
    | error e =>
      rw [show applyLedgerOpTx t (.burnOp src a) = t by
        unfold applyLedgerOpTx applyLedgerOp; dsimp only; rw [hm]]
      exact h
    | ok t' =>
      rw [show applyLedgerOpTx t (.burnOp src a) = t' by
        unfold applyLedgerOpTx applyLedgerOp; dsimp only; rw [hm]]
      unfold LPERC20.burn at hm
      split at hm
      · exact absurd hm (by simp)
      · split at hm
        · exact absurd hm (by simp)
        · rename_i hbal
          cases hm
          dsimp only
          have hs := sumVals_setK t.balances src (t.balanceOf src - a)
          have hle := lookupD_le_sumVals t.balances src
          unfold LPERC20.balanceOf at hs hbal ⊢
          omega
  | transferOp caller dst a =>
    cases hm : t.xfer caller dst a with
    | error e =>
      rw [show applyLedgerOpTx t (.transferOp caller dst a) = t by
        unfold applyLedgerOpTx applyLedgerOp; dsimp only; rw [hm]]
      exact h
    | ok t' =>
      rw [show applyLedgerOpTx t (.transferOp caller dst a) = t' by
        unfold applyLedgerOpTx applyLedgerOp; dsimp only; rw [hm]]
      exact xfer_preserves_sum hm h
  | transferFromEx caller src dst a =>
    cases hm : t.transferFromOp caller src dst a with
    | error e =>
      rw [show applyLedgerOpTx t (.transferFromEx caller src dst a) = t by
        unfold applyLedgerOpTx applyLedgerOp; dsimp only; rw [hm]]
      exact h
    | ok t' =>
      rw [show applyLedgerOpTx t (.transferFromEx caller src dst a) = t' by
        unfold applyLedgerOpTx applyLedgerOp; dsimp only; rw [hm]]
      simp only [LPERC20.transferFromOp] at hm
      split at hm
      · exact absurd hm (by simp)
      · cases hx : t.xfer src dst a with
        | error e =>
          rw [hx] at hm
          exact absurd hm (by simp [Bind.bind, Except.bind])
        | ok t1 =>
          rw [hx] at hm
          simp only [Bind.bind, Except.bind] at hm
          have h1 := xfer_preserves_sum hx h
          unfold LPERC20.approveOp at hm
          split at hm
          · exact absurd hm (by simp)
          · split at hm
            · exact absurd hm (by simp)
            · cases hm
              exact h1

theorem ledger_ops_preserve_sum (ops : List LedgerOp) :
    ∀ t : LPERC20, sumVals t.balances = t.totalSupply →
      sumVals (applyLedgerOps t ops).balances = (applyLedgerOps t ops).totalSupply := by
  induction ops with
  | nil => intro t h; exact h
  | cons op rest ih =>
    intro t h
    exact ih (applyLedgerOpTx t op) (ledger_step_preserves_sum t op h)

/-! ## Claim theorems -/

/-- C9: starting from the empty share ledger, after any sequence of
`mint`/`burn`/`transfer`/`transferFrom` operations — each run as its own
transaction, so a failing operation reverts and changes nothing — the sum
of all holder balances equals `totalSupply()`.  Since the sequence is
arbitrary, the invariant holds after every operation of every sequence. -/
theorem ledger_sum_balances_eq_totalSupply (ops : List LedgerOp) :
    sumVals (applyLedgerOps LPERC20.empty ops).balances =
      (applyLedgerOps LPERC20.empty ops).totalSupply :=
  ledger_ops_preserve_sum ops LPERC20.empty rfl

/-- C1, code behavior at the failing input: address 999 is not a registered
pool, yet both `transferLiquidityToPool` and `contributeLiquidityForPayment`
invoked with caller 999 on pool 1 succeed and move liquidity, because the
registry scan (source lines 481 and 503) accepts the call as soon as the
*destination* pool is registered (`allPools[i] == msg.sender ||
allPools[i] == targetPool`).  The commands therefore do not fail with an
unauthorized error for every non-registered caller. -/
theorem crossPool_commands_allow_unregistered_caller :
    (c1Chain.getPools.all (fun a => a ≠ 999) = true) ∧
    (transferLiquidityToPool c1Chain 1 999 2 7 5).isOk = true ∧
    (contributeLiquidityForPayment c1Chain 1 999 2 10 5).isOk = true ∧
    (transferLiquidityToPool c1Chain 1 999 2 7 5).toOption ≠ some c1Chain := by
  refine ⟨by decide, by decide, by decide, by decide⟩

/-- C2: a `fallbackPay` call that reverts at any phase leaves every pool's
liquidity, share ledger, stake records and debt lists at their pre-call
values: the transaction semantics (`runTx`) yield the pre-state, so in
particular every pool lookup is unchanged.  The peer transfers performed
during Phases 1-2 live inside the same transaction and are rolled back with
it. -/
theorem fallbackPay_failure_rolls_back
    (c : Chain) (self caller merchant amount now : Nat) (e : Err)
    (h : fallbackPay c self caller merchant amount now = .error e) :
    runTx (fun s => fallbackPay s self caller merchant amount now) c = (c, some e) ∧
    ∀ a, ((runTx (fun s => fallbackPay s self caller merchant amount now) c).1.findPool a) =
      c.findPool a := by
  unfold runTx
  simp only [h]
  exact ⟨trivial, fun a => trivial⟩

/-- Witness for C2 at a concrete input: an underfunded fallback payment
reverts with `InsufficientLiquidity` and the transaction state is the
pre-state. -/
theorem fallbackPay_failure_rolls_back_witness :
    fallbackPay c2WitChain 1 10 5 5 0 = .error .insufficientLiquidity ∧
    (runTx (fun s => fallbackPay s 1 10 5 5 0) c2WitChain =
        (c2WitChain, some .insufficientLiquidity) ∧
      ∀ a, ((runTx (fun s => fallbackPay s 1 10 5 5 0) c2WitChain).1.findPool a) =
        c2WitChain.findPool a) :=
  ⟨rfl, fallbackPay_failure_rolls_back c2WitChain 1 10 5 5 0 .insufficientLiquidity rfl⟩

/-- C3, counterexample to the claimed error code: user 10 has zero
collateral everywhere in `c3CexChain`, so a payment of 5 exceeds the global
collateral, yet the call fails with `InsufficientLiquidity` (the
sufficiency `require` on line 402 fires before the global-collateral
`require` on line 403), not with the `ExceedsGlobalCollateral` error the
claim names. -/
theorem fallbackPay_over_collateral_wrong_error :
    ((c3CexChain.findPool 1).map (fun p => getTotalCollateralAcrossPools c3CexChain p 10) =
      some 0) ∧
    fallbackPay c3CexChain 1 10 5 5 0 = .error .insufficientLiquidity ∧
    Err.insufficientLiquidity ≠ Err.exceedsCollateralLimit := by
  refine ⟨by decide, rfl, by decide⟩

/-- C5, code behavior at the failing input: in `c5Chain` user 10's
unstake-restriction timelock is recorded as 86400 and the user still has an
active debt of 10, yet `unstakeOp` succeeds.  The source `unstake`
(lines 291-308) never reads `debtRelatedUnstakeTimelock` nor the clock
(`unstakeOp` has no time argument because the source body never consults
`block.timestamp`), so the unexpired timer restricts nothing. -/
theorem unstake_ignores_unstake_timelock :
    ((c5Chain.findPool 1).map (fun p => lookupD p.debtRelatedUnstakeTimelock 10 0) =
      some 86400) ∧
    ((c5Chain.findPool 1).map (fun p => p.getActiveDebtAmount 10) = some 10) ∧
    (0 : Nat) < 86400 ∧
    (unstakeOp c5Chain 1 10 1).isOk = true := by
  refine ⟨by decide, by decide, by decide, by decide⟩

/-- C4, counterexample: staking 3 twice leaves `stakedAmount = 6` but
`collateralAmount = 0`, while 20% of 6 is 1 (basis-point floor) and the
exact rate would require `collateralAmount × 5 = stakedAmount`; each stake
floors its own 20% contribution (line 274), so the invariant fails after
the second stake completes. -/
theorem stake_collateral_rounding_cex :
    ((c4CexResult.toOption.bind (fun c => c.findPool 1)).map
        (fun p => ((p.getStake 10).stakedAmount, (p.getStake 10).collateralAmount)) =
      some (6, 0)) ∧
    (0 : Nat) ≠ 6 * COLLATERAL_PERCENTAGE_BP / BASIS_POINTS ∧
    (0 : Nat) * 5 ≠ 6 := by
  refine ⟨by decide, by decide, by decide⟩

/-- C7, counterexample to the claimed return value: user 10 holds all 7
shares of a pool with `stakedAmount = 7`; unstaking one share should return
`stakedAmount × shareAmount / sharesMinted = 7 × 1 / 7 = 1`, but the
two-step basis-point flooring of the source (lines 295-296) returns 0: the
operation succeeds, pays out nothing, and leaves the staked amount at 7. -/
theorem unstake_return_rounding_cex :
    ((unstakeOp c7CexChain 1 10 1).toOption.bind
        (fun c => (c.findPool 1).map (fun p => ((p.getStake 10).stakedAmount, c.tokenBal 10))) =
      some (7, 0)) ∧
    (7 * 1 / 7 : Nat) = 1 ∧
    (0 : Nat) ≠ 1 := by
  refine ⟨by decide, by decide, by decide⟩

/-- C6, counterexample: in `c6CexChain` the fast path does not apply
(available local collateral 0 < 8) yet local liquidity (50) covers the
payment, so the source skips Phase 1 entirely (line 395 guards it with
`currentPoolLiquidity < _amount`) and fails with `InsufficientLiquidity`,
while the spec-ordered `fallbackPaySpecPhase1`, which always runs Phase 1
when the fast path fails, succeeds by drawing the missing 8 from the peer
pool's recorded collateral. -/
theorem fallbackPay_skips_phase1_cex :
    ((c6CexChain.findPool 1).map
        (fun p => decide (p.getCollateralAvailable 10 < 8 ∧ 8 ≤ p.totalLiquidityStaked)) =
      some true) ∧
    fallbackPay c6CexChain 1 10 5 8 0 = .error .insufficientLiquidity ∧
    (fallbackPaySpecPhase1 c6CexChain 1 10 5 8 0).isOk = true := by
  refine ⟨by decide, rfl, by decide⟩

/-- C3, amended: a `fallbackPay` whose amount exceeds the user's total
collateral across pools, computed at call entry, never succeeds: it reverts
with some error (with `ExceedsGlobalCollateral` when it passes the
sufficiency check, possibly with an earlier error otherwise) and the
transaction leaves the state unchanged.  The fast path is unreachable
because the locally available collateral is bounded by the global total. -/
theorem fallbackPay_never_exceeds_global_collateral
    (c : Chain) (self caller merchant amount now : Nat) (p : PoolState)
    (hp : c.findPool self = some p)
    (hgt : getTotalCollateralAcrossPools c p caller < amount) :
    ∃ e, fallbackPay c self caller merchant amount now = .error e ∧
      runTx (fun s => fallbackPay s self caller merchant amount now) c = (c, some e) := by
  have hamt : ¬ (amount = 0) := by
    intro h0
    omega
  have hlt : p.getCollateralAvailable caller < amount :=
    lt_of_le_of_lt
      (le_trans (getCollateralAvailable_le p caller) (local_collateral_le_total c p caller)) hgt
  have herr : ∃ e, fallbackPay c self caller merchant amount now = .error e := by
    simp only [fallbackPay, hp]
    by_cases hst : p.status ≠ PoolStatus.ACTIVE
    · refine ⟨.poolNotActive, ?_⟩
      rw [if_pos hst]
    · rw [if_neg hst, if_neg hamt]
      by_cases hm : merchant = 0
      · refine ⟨.invalidMerchant, ?_⟩
        rw [if_pos hm]
      · rw [if_neg hm]
        rw [if_neg (by omega : ¬ (p.getCollateralAvailable caller ≥ amount ∧
          p.totalLiquidityStaked ≥ amount))]
        by_cases hliq : p.totalLiquidityStaked < amount
        · rw [if_pos hliq]
          cases hr : redistributeFundsFromPools c self caller amount
              (p.getCollateralAvailable caller) with
          | error e =>
            refine ⟨e, ?_⟩
            simp only [Bind.bind, Except.bind]
          | ok v =>
            simp only [Bind.bind, Except.bind]
            by_cases hv : v.2 < amount
            · simp only [hv, if_true]
              cases ha : addLiquidityFromNewPools v.1 self caller amount v.2 with
              | error e =>
                refine ⟨e, ?_⟩
                simp only [Bind.bind, Except.bind]
              | ok w =>
                simp only [Bind.bind, Except.bind]
                by_cases hw : w.2 < amount
                · refine ⟨.insufficientLiquidity, ?_⟩
                  simp only [hw, if_true]
                · refine ⟨.exceedsCollateralLimit, ?_⟩
                  simp only [hw, if_false, hgt, if_true]
            · refine ⟨.exceedsCollateralLimit, ?_⟩
              simp only [hv, if_false, hgt, if_true]
        · rw [if_neg hliq]
          simp only [Bind.bind, Except.bind]
          simp only [hlt, if_true]
          cases ha : addLiquidityFromNewPools c self caller amount
              (p.getCollateralAvailable caller) with
          | error e =>
            refine ⟨e, ?_⟩
            simp only [Bind.bind, Except.bind]
          | ok w =>
            simp only [Bind.bind, Except.bind]
            by_cases hw : w.2 < amount
            · refine ⟨.insufficientLiquidity, ?_⟩
              simp only [hw, if_true]
            · refine ⟨.exceedsCollateralLimit, ?_⟩
              simp only [hw, if_false, hgt, if_true]
  obtain ⟨e, he⟩ := herr
  refine ⟨e, he, ?_⟩
  unfold runTx
  simp only [he]

/-- Witness for C3 at a concrete input: in `c3WitChain` user 10 has zero
global collateral, so a payment of 5 exceeds it and the call reverts,
leaving the state unchanged. -/
theorem fallbackPay_never_exceeds_global_collateral_witness :
    (c3WitChain.findPool 1 = some ⟨1, .ACTIVE, 0, 0, [], [], [], LPERC20.empty⟩ ∧
      getTotalCollateralAcrossPools c3WitChain ⟨1, .ACTIVE, 0, 0, [], [], [], LPERC20.empty⟩ 10 < 5) ∧
    ∃ e, fallbackPay c3WitChain 1 10 5 5 0 = .error e ∧
      runTx (fun s => fallbackPay s 1 10 5 5 0) c3WitChain = (c3WitChain, some e) :=
  ⟨⟨by decide, by decide⟩,
    fallbackPay_never_exceeds_global_collateral c3WitChain 1 10 5 5 0
      ⟨1, .ACTIVE, 0, 0, [], [], [], LPERC20.empty⟩ (by decide) (by decide)⟩

/-- C4, amended: after a successful `stake` by a user whose stake record
was empty, the recorded collateral equals the basis-point floor of 20% of
the recorded staked amount.  (Across longer stake/unstake sequences the
invariant can fail because every operation floors its own contribution;
see the counterexample.) -/
theorem stake_fresh_collateral_rate
    (c : Chain) (self caller amount now : Nat) (p : PoolState) (c' : Chain)
    (hp : c.findPool self = some p)
    (hfresh : p.getStake caller = Stake.zero)
    (hok : stakeOp c self caller amount now = .ok c') :
    ∃ p', c'.findPool self = some p' ∧
      (p'.getStake caller).collateralAmount =
        (p'.getStake caller).stakedAmount * COLLATERAL_PERCENTAGE_BP / BASIS_POINTS := by
  simp only [stakeOp, hp] at hok
  split at hok
  · exact absurd hok (by simp)
  · split at hok
    · exact absurd hok (by simp)
    · cases ht : tokenTransfer c caller self amount with
      | error e =>
        rw [ht] at hok
        simp only [Bind.bind, Except.bind] at hok
        exact absurd hok (by simp)
      | ok c1 =>
        rw [ht] at hok
        simp only [Bind.bind, Except.bind] at hok
        have hc1 : c1.findPool self = some p := by
          unfold Chain.findPool
          rw [tokenTransfer_pools ht]
          exact hp
        by_cases hsup : p.lpToken.totalSupply = 0
        · rw [if_pos hsup] at hok
          cases hmint : p.lpToken.mint caller amount with
          | error e =>
            rw [hmint] at hok
            exact absurd hok (by simp)
          | ok lp =>
            rw [hmint] at hok
            simp only [Except.ok.injEq] at hok
            subst hok
            have hfresh' : lookupD p.stakers caller ⟨0, 0, 0, 0⟩ = (⟨0, 0, 0, 0⟩ : Stake) := hfresh
            refine ⟨_, findPool_setPool hc1 (findPool_addr (c := c) (a := self) (p := p) hp), ?_⟩
            simp [PoolState.getStake, Stake.zero, lookupD_setK_eq, hfresh']
        · rw [if_neg hsup] at hok
          by_cases hl0 : p.totalLiquidityStaked = 0
          · rw [if_pos hl0] at hok
            exact absurd hok (by simp)
          · rw [if_neg hl0] at hok
            cases hmint : p.lpToken.mint caller
                (amount * p.lpToken.totalSupply / p.totalLiquidityStaked) with
            | error e =>
              rw [hmint] at hok
              exact absurd hok (by simp)
            | ok lp =>
              rw [hmint] at hok
              simp only [Except.ok.injEq] at hok
              subst hok
              have hfresh' : lookupD p.stakers caller ⟨0, 0, 0, 0⟩ = (⟨0, 0, 0, 0⟩ : Stake) := hfresh
              refine ⟨_, findPool_setPool hc1 (findPool_addr (c := c) (a := self) (p := p) hp), ?_⟩
              simp [PoolState.getStake, Stake.zero, lookupD_setK_eq, hfresh']

/-- Witness for C4 at a concrete input: staking 3 into the fresh pool of
`c4WitChain` yields a stake record with `stakedAmount = 3` and
`collateralAmount = 0`, the basis-point floor of 20% of 3. -/
theorem stake_fresh_collateral_rate_witness :
    (c4WitChain.findPool 1 = some ⟨1, .ACTIVE, 0, 0, [], [], [], LPERC20.empty⟩ ∧
      (⟨1, .ACTIVE, 0, 0, [], [], [], LPERC20.empty⟩ : PoolState).getStake 10 = Stake.zero ∧
      stakeOp c4WitChain 1 10 3 0 = .ok c4WitFinal) ∧
    ∃ p', c4WitFinal.findPool 1 = some p' ∧
      (p'.getStake 10).collateralAmount =
        (p'.getStake 10).stakedAmount * COLLATERAL_PERCENTAGE_BP / BASIS_POINTS :=
  ⟨⟨by decide, by decide, by rfl⟩,
    stake_fresh_collateral_rate c4WitChain 1 10 3 0
      ⟨1, .ACTIVE, 0, 0, [], [], [], LPERC20.empty⟩ c4WitFinal
      (by decide) (by decide) (by rfl)⟩

/-- C6, amended: Phase 1 of `fallbackPay` runs exactly when local liquidity
is short of the payment.  When the fast path does not apply and
`totalLiquidityStaked < amount`, the call is the Phase 1 → Phase 2 →
sufficiency-check → global-collateral-check → payment pipeline; when the
fast path does not apply but `amount ≤ totalLiquidityStaked` (so available
collateral is short), Phase 1 is skipped — no peer is drawn from by
redistribution — and the call proceeds directly to Phase 2 on the
unchanged chain. -/
theorem fallbackPay_phase1_condition
    (c : Chain) (self caller merchant amount now : Nat) (p : PoolState)
    (hp : c.findPool self = some p)
    (hact : p.status = PoolStatus.ACTIVE) (ha : amount ≠ 0) (hm : merchant ≠ 0)
    (hslow : ¬ (p.getCollateralAvailable caller ≥ amount ∧ p.totalLiquidityStaked ≥ amount)) :
    (p.totalLiquidityStaked < amount →
      fallbackPay c self caller merchant amount now =
        (redistributeFundsFromPools c self caller amount (p.getCollateralAvailable caller)).bind
          (fun r1 =>
            (if r1.2 < amount then addLiquidityFromNewPools r1.1 self caller amount r1.2
              else Except.ok r1).bind
              (fun r2 =>
                if r2.2 < amount then Except.error Err.insufficientLiquidity
                else if getTotalCollateralAcrossPools c p caller < amount then
                  Except.error Err.exceedsCollateralLimit
                else executeOriginalFallbackPay r2.1 self caller merchant amount now))) ∧
    (amount ≤ p.totalLiquidityStaked →
      fallbackPay c self caller merchant amount now =
        (addLiquidityFromNewPools c self caller amount (p.getCollateralAvailable caller)).bind
          (fun r2 =>
            if r2.2 < amount then Except.error Err.insufficientLiquidity
            else if getTotalCollateralAcrossPools c p caller < amount then
              Except.error Err.exceedsCollateralLimit
            else executeOriginalFallbackPay r2.1 self caller merchant amount now)) := by
  constructor
  · intro hliq
    simp only [fallbackPay, hp]
    rw [if_neg (by simp [hact]), if_neg ha, if_neg hm, if_neg hslow, if_pos hliq]
    cases hr : redistributeFundsFromPools c self caller amount
        (p.getCollateralAvailable caller) with
    | error e => simp only [Bind.bind, Except.bind]
    | ok v =>
      simp only [Bind.bind, Except.bind]
      by_cases hv : v.2 < amount
      · simp only [hv, if_true]
      · simp only [hv, if_false]
  · intro hliq
    have hcoll : p.getCollateralAvailable caller < amount := by
      rcases Nat.lt_or_ge (p.getCollateralAvailable caller) amount with h | h
      · exact h
      · exact absurd ⟨h, hliq⟩ hslow
    simp only [fallbackPay, hp]
    rw [if_neg (by simp [hact]), if_neg ha, if_neg hm, if_neg hslow,
      if_neg (by omega : ¬ p.totalLiquidityStaked < amount)]
    simp only [Bind.bind, Except.bind]
    simp only [hcoll, if_true]

/-- Witness for C6 at a concrete input: the empty pool of `c6WitChain` has
liquidity 0 < 5, so the first branch of the phase-condition theorem applies
at amount 5. -/
theorem fallbackPay_phase1_condition_witness :
    (c6WitChain.findPool 1 = some ⟨1, .ACTIVE, 0, 0, [], [], [], LPERC20.empty⟩ ∧
      ¬ ((⟨1, .ACTIVE, 0, 0, [], [], [], LPERC20.empty⟩ : PoolState).getCollateralAvailable 10 ≥ 5 ∧
        (⟨1, .ACTIVE, 0, 0, [], [], [], LPERC20.empty⟩ : PoolState).totalLiquidityStaked ≥ 5)) ∧
    ((⟨1, .ACTIVE, 0, 0, [], [], [], LPERC20.empty⟩ : PoolState).totalLiquidityStaked < 5 →
      fallbackPay c6WitChain 1 10 7 5 0 =
        (redistributeFundsFromPools c6WitChain 1 10 5
            ((⟨1, .ACTIVE, 0, 0, [], [], [], LPERC20.empty⟩ : PoolState).getCollateralAvailable 10)).bind
          (fun r1 =>
            (if r1.2 < 5 then addLiquidityFromNewPools r1.1 1 10 5 r1.2
              else Except.ok r1).bind
              (fun r2 =>
                if r2.2 < 5 then Except.error Err.insufficientLiquidity
                else if getTotalCollateralAcrossPools c6WitChain
                    ⟨1, .ACTIVE, 0, 0, [], [], [], LPERC20.empty⟩ 10 < 5 then
                  Except.error Err.exceedsCollateralLimit
                else executeOriginalFallbackPay r2.1 1 10 7 5 0))) :=
  ⟨⟨by decide, by decide⟩,
    (fallbackPay_phase1_condition c6WitChain 1 10 7 5 0
      ⟨1, .ACTIVE, 0, 0, [], [], [], LPERC20.empty⟩
      (by decide) (by decide) (by decide) (by decide) (by decide)).1⟩

/-- C7, amended: for `unstake(shareAmount)` with `0 < shareAmount ≤
sharesMinted` on an active, well-funded pool (the user's share balance
covers the burn, the pool's liquidity and staking-token balance cover the
payout), with `p = shareAmount × 10000 / sharesMinted` the basis-point
proportion: if the collateral remaining after reducing by
`collateralAmount × p / 10000` is below the user's active debt in this
pool, the call reverts with `InsufficientCollateral` and the transaction
leaves the state unchanged; otherwise it succeeds, reduces the stake record
by the floored proportional amounts, and pays out
`stakedAmount × p / 10000` staking tokens to the user. -/
theorem unstake_collateral_guard
    (c : Chain) (self caller lpAmt : Nat) (p : PoolState)
    (hp : c.findPool self = some p)
    (hact : p.status = PoolStatus.ACTIVE)
    (hc0 : ¬ caller = 0) (hcs : caller ≠ self)
    (hlp : 0 < lpAmt)
    (hminted : lpAmt ≤ (p.getStake caller).lpTokensMinted)
    (hbal : lpAmt ≤ p.lpToken.balanceOf caller)
    (htl : (p.getStake caller).stakedAmount ≤ p.totalLiquidityStaked)
    (htok : (p.getStake caller).stakedAmount ≤ c.tokenBal self) :
    ((p.getStake caller).collateralAmount -
        (p.getStake caller).collateralAmount *
          (lpAmt * BASIS_POINTS / (p.getStake caller).lpTokensMinted) / BASIS_POINTS <
        p.getActiveDebtAmount caller →
      unstakeOp c self caller lpAmt = .error .insufficientCollateral ∧
      runTx (fun s => unstakeOp s self caller lpAmt) c = (c, some .insufficientCollateral)) ∧
    (p.getActiveDebtAmount caller ≤
        (p.getStake caller).collateralAmount -
          (p.getStake caller).collateralAmount *
            (lpAmt * BASIS_POINTS / (p.getStake caller).lpTokensMinted) / BASIS_POINTS →
      ∃ c', unstakeOp c self caller lpAmt = .ok c' ∧
        ((c'.findPool self).map (fun q =>
          ((q.getStake caller).stakedAmount, (q.getStake caller).collateralAmount,
            (q.getStake caller).lpTokensMinted)) =
          some ((p.getStake caller).stakedAmount -
              (p.getStake caller).stakedAmount *
                (lpAmt * BASIS_POINTS / (p.getStake caller).lpTokensMinted) / BASIS_POINTS,
            (p.getStake caller).collateralAmount -
              (p.getStake caller).collateralAmount *
                (lpAmt * BASIS_POINTS / (p.getStake caller).lpTokensMinted) / BASIS_POINTS,
            (p.getStake caller).lpTokensMinted - lpAmt)) ∧
        c'.tokenBal caller = c.tokenBal caller +
          (p.getStake caller).stakedAmount *
            (lpAmt * BASIS_POINTS / (p.getStake caller).lpTokensMinted) / BASIS_POINTS) := by
  have hm0 : (p.getStake caller).lpTokensMinted ≠ 0 := by omega
  have hple : lpAmt * BASIS_POINTS / (p.getStake caller).lpTokensMinted ≤ BASIS_POINTS :=
    bp_proportion_le _ _ hminted hm0
  have hred := mul_bp_div_le (p.getStake caller).collateralAmount _ hple
  have hret := mul_bp_div_le (p.getStake caller).stakedAmount _ hple
  constructor
  · intro hguard
    have herr : unstakeOp c self caller lpAmt = .error .insufficientCollateral := by
      simp only [unstakeOp, hp]
      rw [if_neg (by simp [hact]), if_neg (by omega), if_neg (by omega), if_neg hm0,
        csub_ok hred]
      simp only [Bind.bind, Except.bind]
      rw [if_pos hguard]
    exact ⟨herr, by unfold runTx; simp only [herr]⟩
  · intro hguard
    simp only [unstakeOp, hp]
    rw [if_neg (by simp [hact]), if_neg (by omega), if_neg (by omega), if_neg hm0,
      csub_ok hred]
    simp only [Bind.bind, Except.bind]
    rw [if_neg (by omega), csub_ok hret, csub_ok hminted,
      csub_ok (le_trans hret htl)]
    simp only [Bind.bind, Except.bind]
    rw [show p.lpToken.burn caller lpAmt =
        .ok { p.lpToken with
          balances := setK p.lpToken.balances caller (p.lpToken.balanceOf caller - lpAmt)
          totalSupply := p.lpToken.totalSupply - lpAmt } by
      unfold LPERC20.burn; rw [if_neg hc0, if_neg (by omega)]]
    simp only [Bind.bind, Except.bind]
    refine ⟨_, tokenTransfer_ok _ _ _ _ (by exact le_trans hret htok), ?_, ?_⟩
    · rw [findPool_eq_of_pools
        (tokenTransfer_pools (tokenTransfer_ok _ _ _ _ (by exact le_trans hret htok))) self]
      unfold Chain.findPool Chain.setPool
      rw [find?_map_set c.pools self p _ hp (by exact (findPool_addr hp : p.addr = self))]
      simp [PoolState.getStake, lookupD_setK_eq]
    · show lookupD (setK _ caller _) caller 0 = _
      rw [lookupD_setK_eq, lookupD_setK_ne _ _ _ _ _ (Ne.symm hcs)]
      rfl

/-- Witness for C7 at a concrete input: user 10 unstakes 5 of their 10
shares in `c7WitChain` (stake 10, collateral 2, no debt): the guard passes
and the call returns 5 staking tokens, halving the stake record. -/
theorem unstake_collateral_guard_witness :
    (c7WitChain.findPool 1 =
        some ⟨1, .ACTIVE, 10, 0, [(10, ⟨10, 2, 10, 0⟩)], [], [], ⟨[(10, 10)], [], 10⟩⟩ ∧
      (0 : Nat) < 5 ∧ (10 : Nat) ≠ 0 ∧ (10 : Nat) ≠ 1) ∧
    ∃ c', unstakeOp c7WitChain 1 10 5 = .ok c' ∧
      ((c'.findPool 1).map (fun q =>
        ((q.getStake 10).stakedAmount, (q.getStake 10).collateralAmount,
          (q.getStake 10).lpTokensMinted)) =
        some (10 - 10 * (5 * BASIS_POINTS / 10) / BASIS_POINTS,
          2 - 2 * (5 * BASIS_POINTS / 10) / BASIS_POINTS, 10 - 5)) ∧
      c'.tokenBal 10 = c7WitChain.tokenBal 10 + 10 * (5 * BASIS_POINTS / 10) / BASIS_POINTS :=
  ⟨⟨by decide, by decide, by decide, by decide⟩,
    (unstake_collateral_guard c7WitChain 1 10 5
        ⟨1, .ACTIVE, 10, 0, [(10, ⟨10, 2, 10, 0⟩)], [], [], ⟨[(10, 10)], [], 10⟩⟩
        (by decide) (by decide) (by decide) (by decide) (by decide) (by decide) (by decide)
        (by decide) (by decide)).2 (by decide)⟩

/-- C10: `getCollateralAvailable` is the recorded collateral minus the sum
of unrepaid debt amounts, clamped at zero — stated as the integer identity
with `max`, so it is never negative, also when the active debt exceeds the
recorded collateral; the view is a total function in the model. -/
theorem getCollateralAvailable_clamped (p : PoolState) (u : Addr) :
    ((p.getCollateralAvailable u : Int) =
      max (((p.getStake u).collateralAmount : Int) - (p.getActiveDebtAmount u : Int)) 0) ∧
    (0 : Int) ≤ (p.getCollateralAvailable u : Int) := by
  constructor
  · simp only [PoolState.getCollateralAvailable, PoolState.getActiveDebtAmount]
    split
    · rename_i h
      rw [max_eq_left (by omega)]
      omega
    · rename_i h
      rw [max_eq_right (by omega)]
      omega
  · exact Int.natCast_nonneg _

/-- Effect of one valid repayment call: `repayDebt` succeeds; the indexed
debt is replaced (marked repaid on exact cover, reduced otherwise), the
pool's `totalDebt` drops by the amount, the caller pays the amount in
staking tokens, and the timelock is cleared whenever the user ends the
call without active debt. -/
theorem repayDebt_step
    (c : Chain) (self caller debtIndex a : Nat) (p : PoolState) (d : Debt)
    (hp : c.findPool self = some p)
    (hact : p.status = PoolStatus.ACTIVE)
    (hcs : caller ≠ self)
    (hd : (p.getDebts caller)[debtIndex]? = some d)
    (hnr : d.isRepaid = false)
    (ha : 0 < a) (hle : a ≤ d.amount)
    (hbal : a ≤ c.tokenBal caller) (htd : a ≤ p.totalDebt) :
    ∃ c2 p2, repayDebt c self caller debtIndex a = .ok c2 ∧
      c2.findPool self = some p2 ∧
      p2.status = p.status ∧
      p2.getDebts caller = (p.getDebts caller).set debtIndex
        (if a = d.amount then { d with isRepaid := true } else { d with amount := d.amount - a }) ∧
      p2.totalDebt = p.totalDebt - a ∧
      c2.tokenBal caller = c.tokenBal caller - a ∧
      (p2.getActiveDebtAmount caller = 0 →
        lookupD p2.debtRelatedUnstakeTimelock caller 0 = 0) := by
  have hkey : repayDebt c self caller debtIndex a = .ok (Chain.setPool
      { c with token := (setK (setK c.token caller (c.tokenBal caller - a)) self (lookupD (setK c.token caller (c.tokenBal caller - a)) self 0 + a)) }
      (if PoolState.getActiveDebtAmount { p with
          userDebts := setK p.userDebts caller ((p.getDebts caller).set debtIndex
            (if a = d.amount then { d with isRepaid := true } else { d with amount := d.amount - a }))
          totalDebt := p.totalDebt - a } caller = 0
        then { p with
          userDebts := setK p.userDebts caller ((p.getDebts caller).set debtIndex
            (if a = d.amount then { d with isRepaid := true } else { d with amount := d.amount - a }))
          totalDebt := p.totalDebt - a
          debtRelatedUnstakeTimelock := setK p.debtRelatedUnstakeTimelock caller 0 }
        else { p with
          userDebts := setK p.userDebts caller ((p.getDebts caller).set debtIndex
            (if a = d.amount then { d with isRepaid := true } else { d with amount := d.amount - a }))
          totalDebt := p.totalDebt - a })) := by
    simp only [repayDebt, hp, hd]
    rw [if_neg (by simp [hact]), if_neg (by omega), if_neg (by simp [hnr]), if_neg (by omega),
      tokenTransfer_ok _ _ _ _ hbal]
    simp only [Bind.bind, Except.bind]
    rw [csub_ok htd]
  refine ⟨_, _, hkey,
    findPool_setPool ((findPool_eq_of_pools rfl self).trans hp) ?haddr, ?_, ?_, ?_, ?_, ?_⟩
  case haddr =>
    simp only [apply_ite PoolState.addr, ite_self]
    exact findPool_addr hp
  · simp only [apply_ite PoolState.status, ite_self]
  · simp only [PoolState.getDebts, apply_ite PoolState.userDebts, ite_self]
    exact lookupD_setK_eq _ _ _ _
  · simp only [apply_ite PoolState.totalDebt, ite_self]
  · show lookupD (setK (setK c.token caller (c.tokenBal caller - a)) self
        (lookupD (setK c.token caller (c.tokenBal caller - a)) self 0 + a)) caller 0 =
      c.tokenBal caller - a
    rw [lookupD_setK_ne _ _ _ _ _ (Ne.symm hcs), lookupD_setK_eq]
  · simp only [PoolState.getActiveDebtAmount, PoolState.getDebts,
      apply_ite PoolState.debtRelatedUnstakeTimelock, apply_ite PoolState.userDebts, ite_self]
    intro h0
    rw [if_pos h0]
    exact lookupD_setK_eq _ _ _ _

/-- Induction over a valid repayment sequence against one debt entry. -/
theorem repaySeq_aux (self caller debtIndex : Nat) (hcs : caller ≠ self) :
    ∀ (amts : List Nat) (c : Chain) (p : PoolState) (d : Debt),
      c.findPool self = some p → p.status = PoolStatus.ACTIVE →
      (p.getDebts caller)[debtIndex]? = some d → d.isRepaid = false →
      validRepaySeq d.amount amts = true → 0 < d.amount →
      d.amount ≤ c.tokenBal caller → d.amount ≤ p.totalDebt →
      ∃ c' p', repaySeq self caller debtIndex c amts = .ok c' ∧
        c'.findPool self = some p' ∧
        (∃ d', (p'.getDebts caller)[debtIndex]? = some d' ∧ d'.isRepaid = true) ∧
        p'.totalDebt = p.totalDebt - d.amount ∧
        (p'.getActiveDebtAmount caller = 0 →
          lookupD p'.debtRelatedUnstakeTimelock caller 0 = 0) := by
  intro amts
  induction amts with
  | nil =>
    intro c p d hp hact hd hnr hseq hda hbal htd
    exfalso
    simp [validRepaySeq] at hseq
    omega
  | cons a rest ih =>
    intro c p d hp hact hd hnr hseq hda hbal htd
    simp only [validRepaySeq, Bool.and_eq_true, decide_eq_true_eq] at hseq
    obtain ⟨⟨ha, hle⟩, hrest⟩ := hseq
    have hlen : debtIndex < (p.getDebts caller).length := (List.getElem?_eq_some.mp hd).1
    obtain ⟨c2, p2, hre, hfp2, hst2, hdl2, htd2, hbal2, htlc2⟩ :=
      repayDebt_step c self caller debtIndex a p d hp hact hcs hd hnr ha hle
        (le_trans hle hbal) (le_trans hle htd)
    simp only [repaySeq]
    rw [hre]
    simp only [Bind.bind, Except.bind]
    by_cases heq : a = d.amount
    · have hrest0 : rest = [] := by
        cases rest with
        | nil => rfl
        | cons b t =>
          exfalso
          simp [validRepaySeq] at hrest
          omega
      subst hrest0
      rw [if_pos heq] at hdl2
      refine ⟨c2, p2, by simp only [repaySeq], hfp2, ⟨{ d with isRepaid := true }, ?_, rfl⟩, ?_, htlc2⟩
      · rw [hdl2]
        exact List.getElem?_set_eq_of_lt _ hlen
      · rw [htd2, heq]
    · rw [if_neg heq] at hdl2
      have hd2 : (p2.getDebts caller)[debtIndex]? = some { d with amount := d.amount - a } := by
        rw [hdl2]
        exact List.getElem?_set_eq_of_lt _ hlen
      obtain ⟨c', p', hsr, hfp', hex', htdf, htlf⟩ :=
        ih c2 p2 { d with amount := d.amount - a } hfp2 (hst2.trans hact) hd2 hnr hrest
          (by show 0 < d.amount - a; omega)
          (by rw [hbal2]; show d.amount - a ≤ c.tokenBal caller - a; omega)
          (by rw [htd2]; show d.amount - a ≤ p.totalDebt - a; omega)
      refine ⟨c', p', hsr, hfp', hex', ?_, htlf⟩
      rw [htdf, htd2]
      show p.totalDebt - a - (d.amount - a) = p.totalDebt - d.amount
      omega

/-- C8: repeatedly repaying one debt created by `fallbackPay` with valid
amounts (each positive, at most the remaining amount, together covering the
debt) succeeds, ends with the entry marked `isRepaid = true` (so it
contributes zero active debt), decrements the pool's `totalDebt` by the
debt's amount, and leaves the unstake-restriction timelock cleared to zero
whenever the user ends without active debt in this pool. -/
theorem repayDebt_roundtrip
    (c : Chain) (self caller debtIndex : Nat) (p : PoolState) (d : Debt) (amts : List Nat)
    (hp : c.findPool self = some p) (hact : p.status = PoolStatus.ACTIVE)
    (hcs : caller ≠ self)
    (hd : (p.getDebts caller)[debtIndex]? = some d) (hnr : d.isRepaid = false)
    (hseq : validRepaySeq d.amount amts = true) (hda : 0 < d.amount)
    (hbal : d.amount ≤ c.tokenBal caller) (htd : d.amount ≤ p.totalDebt) :
    ∃ c' p', repaySeq self caller debtIndex c amts = .ok c' ∧
      c'.findPool self = some p' ∧
      (∃ d', (p'.getDebts caller)[debtIndex]? = some d' ∧ d'.isRepaid = true) ∧
      p'.totalDebt = p.totalDebt - d.amount ∧
      (p'.getActiveDebtAmount caller = 0 →
        lookupD p'.debtRelatedUnstakeTimelock caller 0 = 0) :=
  repaySeq_aux self caller debtIndex hcs amts c p d hp hact hd hnr hseq hda hbal htd

/-- Witness for C8 at a concrete input: user 10 repays their debt of 10 in
pool 1 of `c8WitChain` in two installments of 4 and 6; the debt ends
repaid, `totalDebt` drops to zero and the timelock is cleared. -/
theorem repayDebt_roundtrip_witness :
    (c8WitChain.findPool 1 = some ⟨1, .ACTIVE, 80, 10, [(10, ⟨80, 16, 80, 0⟩)],
        [(10, [⟨10, 5, 10, 0, false⟩])], [(10, 86400)], ⟨[(10, 80)], [], 80⟩⟩ ∧
      validRepaySeq 10 [4, 6] = true ∧ (10 : Nat) ≠ 1) ∧
    ∃ c' p', repaySeq 1 10 0 c8WitChain [4, 6] = .ok c' ∧
      c'.findPool 1 = some p' ∧
      (∃ d', (p'.getDebts 10)[0]? = some d' ∧ d'.isRepaid = true) ∧
      p'.totalDebt = 10 - 10 ∧
      (p'.getActiveDebtAmount 10 = 0 →
        lookupD p'.debtRelatedUnstakeTimelock 10 0 = 0) :=
  ⟨⟨by decide, by decide, by decide⟩,
    repayDebt_roundtrip c8WitChain 1 10 0
      ⟨1, .ACTIVE, 80, 10, [(10, ⟨80, 16, 80, 0⟩)], [(10, [⟨10, 5, 10, 0, false⟩])],
        [(10, 86400)], ⟨[(10, 80)], [], 80⟩⟩
      ⟨10, 5, 10, 0, false⟩ [4, 6]
      (by decide) (by decide) (by decide) (by decide) (by decide) (by decide) (by decide)
      (by decide) (by decide)⟩

end Aegis
